import Mathlib

/-!
# Verification of the chiapos-go forward-propagation pipeline

Shallow embedding of `src/pkg/pos/plot.go` and `src/pkg/pos/encrypt.go`.
Bytes are natural numbers; Go `big.Int` values are `Nat`; Go `uint64` and
`int` values are `Nat` (all quantities involved are non-negative).  File
writes are modelled as an explicit list of write operations; file reads in
`WriteTable` are modelled by the list of entries the codec decodes from the
previous table until the end-of-table sentinel or end-of-file.  The external
collaborators that are out of scope per the spec (entry codec byte widths,
bucket-id extraction, the match predicate, Fx calculation, collation) are
parameters of the embedded functions, matching their contracts in §6 of the
spec.
-/

namespace ChiaPos

/-- big.Int `SetBytes`: big-endian bytes to a natural number. -/
def bytesToNat (bs : List Nat) : Nat :=
  bs.foldl (fun a b => a * 256 + b) 0

/-- Fuel-driven helper for `natToBytes` (structural recursion on the fuel). -/
def natToBytesAux : Nat → Nat → List Nat
  | 0, _ => []
  | fuel + 1, n => if n = 0 then [] else natToBytesAux fuel (n / 256) ++ [n % 256]

/-- big.Int `Bytes`: minimal big-endian byte representation of a natural number. -/
def natToBytes (n : Nat) : List Nat := natToBytesAux n n

/-- A 128-bit block cipher (Go `cipher.Block`): `encrypt` is the block
permutation on the source bytes.  The Go method `Encrypt(dst, src)` writes
the encryption of `src` into the caller-supplied destination slice; the
interface returns no error. -/
structure Cipher where
  encrypt : List Nat → List Nat

/-- Go `c.Encrypt(dst, src)` under a total embedding: the destination
receives at most `dst.length` bytes of the block output (a nil / too-short
destination receives nothing; the caller's slice keeps its length). -/
def encryptInto (c : Cipher) (dst src : List Nat) : List Nat :=
  (c.encrypt src).take dst.length

/-- Modelled from the spec: `utils.Trunc` is not under `src/`; §4.1 says the
output is truncated to the most significant `k+5` bits of the 128-bit
cipher-derived value (`b`, `e` are the bit positions `0` and `k+5`). -/
def trunc (res b e _k : Nat) : Nat :=
  res / 2 ^ (128 - e) % 2 ^ (e - b)

/-- Modelled from the spec: `utils.ConcatBig` is not under `src/`; §4.1 calls
it "the concatenation of `k`, `x`, `y`" (bit-concatenation of the two
operands at width `k`). -/
def concatBig (k x y : Nat) : Nat := x * 2 ^ k + y

/-- `At` from `src/pkg/pos/encrypt.go`: the keyed block-cipher hash.
`cs` is the external `CollaSize` collaborator (§6: `CollationSize(t) -> size`,
a pure parameter lookup that fails on an unrecognized `t`; it is not under
`src/`).  Each branch mirrors the Go `switch` on
`size = 2 * k * collaSize`; in the source every `c.Encrypt` destination is a
declared-but-never-allocated slice, which is what `encryptInto c []` (and
`encryptInto c ct` for a previously written such slice) captures. -/
def At (x y k t : Nat) (cs : Nat → Except String Nat) (c : Cipher) :
    Except String Nat :=
  let param := 2 ^ 128
  let xLow := x % param
  let xHigh := x / param
  let yLow := y % param
  let yHigh := y / param
  match cs t with
  | .error e => .error e
  | .ok collaSize =>
    let size := 2 * k * collaSize
    let cipherText : List Nat :=
      if 0 ≤ size ∧ size ≤ 128 then
        encryptInto c [] (natToBytes (concatBig k x y))
      else if 129 ≤ size ∧ size ≤ 256 then
        let ct1 := encryptInto c [] (natToBytes x)
        let tmp := bytesToNat ct1
        encryptInto c ct1 (natToBytes (Nat.xor tmp y))
      else if 257 ≤ size ∧ size ≤ 384 then
        let cipherConcat := encryptInto c [] (natToBytes (concatBig k xLow yLow))
        let ccBig := bytesToNat cipherConcat
        let cipherYHigh := encryptInto c [] (natToBytes yHigh)
        let cyBig := bytesToNat cipherYHigh
        let cipherXHigh := encryptInto c [] (natToBytes xHigh)
        let cxBig := bytesToNat cipherXHigh
        encryptInto c [] (natToBytes (Nat.xor (Nat.xor ccBig cyBig) cxBig))
      else if 385 ≤ size ∧ size ≤ 512 then
        let tmp1 := encryptInto c [] (natToBytes xHigh)
        let tmpBig1 := bytesToNat tmp1
        let tmp2 := encryptInto c tmp1 (natToBytes (Nat.xor tmpBig1 xLow))
        let tmpBig2 := bytesToNat tmp2
        let cipherYHigh := encryptInto c [] (natToBytes yHigh)
        let cyBig := bytesToNat cipherYHigh
        encryptInto c [] (natToBytes (Nat.xor (Nat.xor tmpBig2 cyBig) yLow))
      else
        []
    let res := bytesToNat cipherText
    .ok (trunc res 0 (k + 5) k)

/-- One decoded table entry (`serialize.Entry` as used by `WriteTable`):
its hash value `Fx`, its opaque metadata payload, and the read-order index
the loop assigns. -/
structure Entry where
  fx : Nat
  meta : Nat
  index : Nat
deriving DecidableEq, Repr

/-- One match returned by the external matcher (`Match` with the fields
`WriteTable` consumes: `Left`, `LeftMetadata`, `RightMetadata`). -/
structure MatchPair where
  left : Nat
  leftMeta : Nat
  rightMeta : Nat
deriving DecidableEq, Repr

/-- A single write the pipeline performs on the plot file: a table-1 entry
`(x, f1x)` at a byte offset, a derived-table entry `(f, collated)` at a byte
offset, or the end-of-table sentinel `serialize.EOT`. -/
inductive WOp where
  | entry1 (off x fx : Nat)
  | entryT (off f collated : Nat)
  | eot
deriving DecidableEq, Repr

/-- The external collaborators `WriteTable` consumes, by their §6 contracts:
`parameters.BucketID`, `FindMatches`, `fx.Calculate`, `Collate`, and the
byte count `serialize.Write` reports for a derived entry `(f, collated)`. -/
structure TableCtx where
  bucketID : Nat → Nat
  findMatches : List Entry → List Entry → List MatchPair
  calculate : Nat → Nat → Nat → Nat → Except String Nat
  collate : Nat → Nat → Nat → Nat → Except String Nat
  writeTLen : Nat → Nat → Nat

/-- The mutable window state of `WriteTable`: `bucketID` (Go `bucketID`),
and the two accumulated buckets. -/
structure TState where
  bucketID : Nat
  leftBucket : List Entry
  rightBucket : List Entry
deriving DecidableEq, Repr

/-- The inner `for _, m := range FindMatches(...)` loop of `WriteTable`
(plot.go lines 149-166): for each match, compute `f` and `collated`
(either may fail, aborting with the bytes written so far), then write the
derived entry at `currentStart + written`.  Returns the updated byte count,
the writes performed, and the error if any. -/
def writeMatches (ctx : TableCtx) (t k currentStart : Nat) :
    List MatchPair → Nat → List WOp → Nat × List WOp × Option String
  | [], written, ops => (written, ops, none)
  | m :: ms, written, ops =>
    match ctx.calculate t m.left m.leftMeta m.rightMeta with
    | .error e => (written, ops, some e)
    | .ok f =>
      match ctx.collate t k m.leftMeta m.rightMeta with
      | .error e => (written, ops, some e)
      | .ok collated =>
        let w := ctx.writeTLen f collated
        writeMatches ctx t k currentStart ms (written + w)
          (ops ++ [WOp.entryT (currentStart + written) f collated])

/-- The guarded matcher run opening the default branch of `WriteTable`
(plot.go lines 146-167): the matches of the two buckets are derived and
written only when both buckets are non-empty. -/
def matchPhase (ctx : TableCtx) (t k currentStart : Nat) (st : TState)
    (written : Nat) (ops : List WOp) : Nat × List WOp × Option String :=
  if st.leftBucket.length > 0 ∧ st.rightBucket.length > 0 then
    writeMatches ctx t k currentStart
      (ctx.findMatches st.leftBucket st.rightBucket) written ops
  else (written, ops, none)

/-- One iteration of the `WriteTable` read loop body (plot.go lines
135-180), after the entry has been decoded and given its index: classify
the entry against the bucket window and, in the default branch, run the
matcher over a full window and slide or reset.  In the source the
triggering entry is not re-appended after the slide/reset. -/
def stepEntry (ctx : TableCtx) (t k currentStart : Nat) (st : TState)
    (e : Entry) (written : Nat) (ops : List WOp) :
    TState × Nat × List WOp × Option String :=
  let leftBucketID := ctx.bucketID e.fx
  if leftBucketID = st.bucketID then
    ({ st with leftBucket := st.leftBucket ++ [e] }, written, ops, none)
  else if leftBucketID = st.bucketID + 1 then
    ({ st with rightBucket := st.rightBucket ++ [e] }, written, ops, none)
  else
    match matchPhase ctx t k currentStart st written ops with
    | (written1, ops1, some e1) => (st, written1, ops1, some e1)
    | (written1, ops1, none) =>
      if leftBucketID = st.bucketID + 2 then
        ({ bucketID := st.bucketID + 1, leftBucket := st.rightBucket,
           rightBucket := [] }, written1, ops1, none)
      else
        ({ bucketID := leftBucketID, leftBucket := [], rightBucket := [] },
         written1, ops1, none)

/-- The `WriteTable` read loop (plot.go lines 123-184) over the stream of
`(Fx, metadata)` pairs the codec decodes from the previous table before the
end-of-table sentinel / end-of-file; `index` is the running read-order
counter.  Returns the final window state, bytes written, writes performed,
and the error if any.  The loop simply breaks at end-of-stream: no flush of
the accumulated buckets is performed. -/
def runTable (ctx : TableCtx) (t k currentStart : Nat) :
    List (Nat × Nat) → Nat → TState → Nat → List WOp →
    TState × Nat × List WOp × Option String
  | [], _, st, written, ops => (st, written, ops, none)
  | (fx, meta) :: rest, index, st, written, ops =>
    match stepEntry ctx t k currentStart st ⟨fx, meta, index⟩ written ops with
    | (st1, w1, o1, some e1) => (st1, w1, o1, some e1)
    | (st1, w1, o1, none) => runTable ctx t k currentStart rest (index + 1) st1 w1 o1

/-- `WriteTable` from plot.go: builds table `t` from the decoded stream of
the previous table, returning (bytes written, writes performed, error). -/
def WriteTable (ctx : TableCtx) (t k currentStart : Nat)
    (stream : List (Nat × Nat)) : Nat × List WOp × Option String :=
  let r := runTable ctx t k currentStart stream 0 ⟨0, [], []⟩ 0 []
  (r.2.1, r.2.2.1, r.2.2.2)

/-- The `for x := 0; x < maxNumber; x++` loop of `WriteFirstTable`
(plot.go lines 94-101), followed by the sentinel write: `f1` is the
collaborator `f1.Calculate`, `len1 x f1x` the byte count `serialize.Write`
reports for the entry `(x, f1x)` (codec contract, §6); `n` counts the
remaining iterations.  `wrote` accumulates entry bytes only; the sentinel
write does not add to it. -/
def firstTableAux (f1 : Nat → Nat) (len1 : Nat → Nat → Nat) (start : Nat) :
    Nat → Nat → Nat → List WOp → Nat × List WOp
  | 0, _, wrote, ops => (wrote, ops ++ [WOp.eot])
  | n + 1, x, wrote, ops =>
    firstTableAux f1 len1 start n (x + 1) (wrote + len1 x (f1 x))
      (ops ++ [WOp.entry1 (start + wrote) x (f1 x)])

/-- `WriteFirstTable` from plot.go (successful run): writes the entry
`(x, f1(x))` for every `x` below `2^k` at sequential offsets from `start`,
then the end-of-table sentinel, and returns the bytes written (sentinel
excluded) together with the writes performed. -/
def WriteFirstTable (k start : Nat) (f1 : Nat → Nat)
    (len1 : Nat → Nat → Nat) : Nat × List WOp :=
  firstTableAux f1 len1 start (2 ^ k) 0 0 []

/-- The ASCII magic string written first by `WriteHeader`. -/
def magicBytes : List Nat := "Proof of Space Plot".toList.map Char.toNat

/-- `WriteHeader` from plot.go (successful run): magic string, plot id,
one byte `k`, the 2-byte memo length buffer (`make([]byte, 2)` with only
index 0 assigned from `byte(len(memo))`), then the memo.  Returns the byte
count and the bytes written. -/
def WriteHeader (k : Nat) (memo idb : List Nat) : Nat × List Nat :=
  let sizeBuf := (List.replicate 2 0).set 0 (memo.length % 256)
  let bytes := magicBytes ++ idb ++ [k % 256] ++ sizeBuf ++ memo
  (bytes.length, bytes)

/-- One observable step of `WritePlotFile`: the header write, the table-1
generation, the on-disk sort of a table region, or a `WriteTable` pass for
a derived table. -/
inductive PEvent where
  | header
  | table1
  | sortTable (t : Nat)
  | buildTable (t : Nat)
deriving DecidableEq, Repr

/-- Result of the embedded pipeline: the steps it performed in order, the
per-entry length it computed for table 1 (`wrote / maxNumber`, plot.go line
55), and the error it returned if any. -/
structure PipeResult where
  events : List PEvent
  entryLen1 : Nat
  err : Option String
deriving DecidableEq, Repr

/-- The `for t := 2; t <= 7; t++` loop of `WritePlotFile` (plot.go lines
70-79).  `streams t` is the entry stream the codec decodes from the
previous table during pass `t`.  After a successful pass the source
advances `previousStart`, `currentStart` and `entryLen`, then executes the
unconditional `break // TODO: REMOVE`, so the loop returns after its first
iteration; on a pass error it returns that error.  No sort of the newly
written table happens in the loop body. -/
def tableLoopGo (ctx : TableCtx) (streams : Nat → List (Nat × Nat))
    (k _maxNumber : Nat) (t _previousStart currentStart entryLen : Nat)
    (events : List PEvent) : PipeResult :=
  if t ≤ 7 then
    match WriteTable ctx t k currentStart (streams t) with
    | (_, _, some e) => ⟨events ++ [PEvent.buildTable t], entryLen, some e⟩
    | (_, _, none) => ⟨events ++ [PEvent.buildTable t], entryLen, none⟩
  else ⟨events, entryLen, none⟩

/-- `WritePlotFile` from plot.go, over the collaborators and the decoded
streams: header, table 1, the on-disk sort of table 1, then the derived
table loop.  File creation, the spare file, and the sort are treated as
succeeding collaborator calls (their error paths are outside the embedded
state). -/
def WritePlotFile (ctx : TableCtx) (streams : Nat → List (Nat × Nat))
    (k : Nat) (memo idb : List Nat) (f1 : Nat → Nat)
    (len1 : Nat → Nat → Nat) : PipeResult :=
  let headerLen := (WriteHeader k memo idb).1
  let wrote := (WriteFirstTable k headerLen f1 len1).1
  let maxNumber := 2 ^ k
  let entryLen := wrote / maxNumber
  let events := [PEvent.header, PEvent.table1, PEvent.sortTable 1]
  let r := tableLoopGo ctx streams k maxNumber 2 headerLen (headerLen + wrote)
    entryLen events
  ⟨r.events, entryLen, r.err⟩

/-- Encrypting into a nil destination yields nothing. -/
theorem encryptInto_nil (c : Cipher) (src : List Nat) :
    encryptInto c [] src = [] := by
  simp [encryptInto]

/-- Characterization of `At`: since every `c.Encrypt` destination in the
source is a never-allocated slice, the ciphertext read back is empty on
every path, and the result only depends on whether `CollaSize` succeeds. -/
theorem At_char (x y k t : Nat) (cs : Nat → Except String Nat) (c : Cipher) :
    At x y k t cs c =
      match cs t with
      | .error e => .error e
      | .ok _ => .ok (trunc (bytesToNat []) 0 (k + 5) k) := by
  cases h : cs t with
  | error e => simp [At, h]
  | ok v => simp [At, h, encryptInto]

/-- A concrete cipher (constant zero block) used to evaluate `At`. -/
def zeroCipher : Cipher := ⟨fun _ => List.replicate 16 0⟩

/-- A concrete `CollaSize` collaborator recognizing only `t = 2`, with
collation size 1. -/
def csOne : Nat → Except String Nat :=
  fun t => if t = 2 then .ok 1 else .error "unsupported collation size"

/-- C3: in every size case of `At` the cipher destination is a declared but
never-allocated slice, so under the total embedding the ciphertext read
back is empty and the value `At` returns does not depend on the cipher at
all: two arbitrary ciphers give identical results for all inputs. -/
theorem at_independent_of_cipher (x y k t : Nat)
    (cs : Nat → Except String Nat) (c1 c2 : Cipher) :
    At x y k t cs c1 = At x y k t cs c2 := by
  rw [At_char, At_char]

/-- C4 counterexample: with a recognized collation size of 1 and `k = 300`
the combined size `2*k*collaSize = 600` exceeds 512 bits, yet `At` returns
a value with no error — it does not fail with an "unsupported collation
size" error as the claim states. -/
theorem at_no_error_above_512 :
    512 < 2 * 300 * 1
    ∧ (At 0 0 300 2 csOne zeroCipher).isOk = true := by
  refine ⟨by decide, ?_⟩
  rw [At_char]
  rfl

/-- C4 amended: `At` returns an error exactly when the external `CollaSize`
collaborator fails on `t` (that error is propagated verbatim); for every
recognized collation size — including combined sizes above 512 bits, where
no algorithm case executes — it returns a hash value with no error, and
the cipher interface itself cannot produce an error. -/
theorem at_error_iff_collaSize_error (x y k t : Nat)
    (cs : Nat → Except String Nat) (c : Cipher) (e : String) :
    At x y k t cs c = .error e ↔ cs t = .error e := by
  rw [At_char]
  cases h : cs t with
  | error e1 => simp
  | ok v => simp

/-- A concrete instantiation of the `WriteTable` collaborators for
evaluation: the bucket id of a hash is the hash itself, the matcher pairs
every left entry with every right entry, `Calculate` and `Collate` are
total arithmetic stand-ins, and every derived entry serializes to 1 byte. -/
def testCtx : TableCtx where
  bucketID := fun fx => fx
  findMatches := fun l r =>
    l.flatMap (fun a => r.map (fun b => ⟨a.fx, a.meta, b.meta⟩))
  calculate := fun _ left lm rm => .ok (left + lm + rm)
  collate := fun _ _ lm rm => .ok (lm + rm)
  writeTLen := fun _ _ => 1

/-- C1: on an input stream consisting solely of two non-empty adjacent
buckets (one entry with bucket id 0, one with bucket id 1), `WriteTable`
returns having written nothing — the read loop breaks at end-of-stream
without running the matcher over the accumulated buckets — even though the
matcher applied to those buckets yields a match.  This contradicts the
end-of-stream flush requirement. -/
theorem writeTable_drops_final_bucket_pair :
    WriteTable testCtx 2 1 100 [(0, 10), (1, 20)] = (0, [], none)
    ∧ testCtx.findMatches [⟨0, 10, 0⟩] [⟨1, 20, 1⟩] ≠ [] := by
  constructor
  · rfl
  · decide

/-- C5: on the stream with bucket ids 0, 1, 2 the third entry triggers the
default branch with a slide (`id = bucketID + 2`); after the slide the new
window is `bucketID = 1`, `leftBucket = [entry 1]`, and the triggering
entry — whose bucket id equals the new `bucketID + 1`, i.e. it should
start the new right bucket — is discarded: the final right bucket is
empty. -/
theorem writeTable_discards_triggering_entry :
    (runTable testCtx 2 1 100 [(0, 10), (1, 20), (2, 30)] 0 ⟨0, [], []⟩ 0 []).1 =
      ⟨1, [⟨1, 20, 1⟩], []⟩
    ∧ testCtx.bucketID 2 = 1 + 1 := by
  constructor
  · rfl
  · rfl

/-- The match-derivation loop only appends derived entries, never the
end-of-table sentinel. -/
theorem writeMatches_no_eot (ctx : TableCtx) (t k cst : Nat)
    (ms : List MatchPair) : ∀ (written : Nat) (ops : List WOp),
    WOp.eot ∉ ops → WOp.eot ∉ (writeMatches ctx t k cst ms written ops).2.1 := by
  induction ms with
  | nil => intro written ops h; exact h
  | cons m ms ih =>
    intro written ops h
    simp only [writeMatches]
    cases ctx.calculate t m.left m.leftMeta m.rightMeta with
    | error e => exact h
    | ok f =>
      cases ctx.collate t k m.leftMeta m.rightMeta with
      | error e => exact h
      | ok collated =>
        apply ih
        simp [h]

/-- The guarded matcher run never writes the sentinel. -/
theorem matchPhase_no_eot (ctx : TableCtx) (t k cst : Nat) (st : TState)
    (written : Nat) (ops : List WOp) (h : WOp.eot ∉ ops) :
    WOp.eot ∉ (matchPhase ctx t k cst st written ops).2.1 := by
  unfold matchPhase
  split
  · exact writeMatches_no_eot ctx t k cst _ written ops h
  · exact h

/-- A single loop iteration of `WriteTable` never writes the sentinel. -/
theorem stepEntry_no_eot (ctx : TableCtx) (t k cst : Nat) (st : TState)
    (e : Entry) (written : Nat) (ops : List WOp) (h : WOp.eot ∉ ops) :
    WOp.eot ∉ (stepEntry ctx t k cst st e written ops).2.2.1 := by
  have hm := matchPhase_no_eot ctx t k cst st written ops h
  unfold stepEntry
  by_cases h1 : ctx.bucketID e.fx = st.bucketID
  · simp only [if_pos h1]; exact h
  · simp only [if_neg h1]
    by_cases h2 : ctx.bucketID e.fx = st.bucketID + 1
    · simp only [if_pos h2]; exact h
    · simp only [if_neg h2]
      cases hmp : matchPhase ctx t k cst st written ops with
      | mk w1 r =>
        rw [hmp] at hm
        obtain ⟨o1, err⟩ := r
        cases err with
        | some e1 => exact hm
        | none =>
          by_cases h3 : ctx.bucketID e.fx = st.bucketID + 2
          · simp only [if_pos h3]; exact hm
          · simp only [if_neg h3]; exact hm

/-- The `WriteTable` read loop never writes the sentinel, from any state. -/
theorem runTable_no_eot (ctx : TableCtx) (t k cst : Nat)
    (stream : List (Nat × Nat)) :
    ∀ (index : Nat) (st : TState) (written : Nat) (ops : List WOp),
    WOp.eot ∉ ops →
    WOp.eot ∉ (runTable ctx t k cst stream index st written ops).2.2.1 := by
  induction stream with
  | nil => intro _ _ _ _ h; exact h
  | cons p rest ih =>
    intro index st written ops h
    obtain ⟨fx, meta⟩ := p
    simp only [runTable]
    have hs := stepEntry_no_eot ctx t k cst st ⟨fx, meta, index⟩ written ops h
    cases hst : stepEntry ctx t k cst st ⟨fx, meta, index⟩ written ops with
    | mk st1 r =>
      rw [hst] at hs
      obtain ⟨w1, o1, err⟩ := r
      cases err with
      | some e1 => exact hs
      | none => exact ih (index + 1) st1 w1 o1 hs

/-- C9: a derived-table pass writes no end-of-table sentinel at all: for
every collaborator instantiation and every input stream, the writes
`WriteTable` performs never include the sentinel, so no table written by
`WriteTable` is terminated by one (table 1, by contrast, is — see the
table-1 theorem).  This contradicts the claim that every table region the
pipeline writes ends with the sentinel. -/
theorem writeTable_never_writes_sentinel (ctx : TableCtx) (t k cst : Nat)
    (stream : List (Nat × Nat)) :
    WOp.eot ∉ (WriteTable ctx t k cst stream).2.1 := by
  unfold WriteTable
  exact runTable_no_eot ctx t k cst stream 0 ⟨0, [], []⟩ 0 [] (by simp)

/-- Total serialized byte count of the first `n` table-1 entries. -/
def sumLen (len1 : Nat → Nat → Nat) (f1 : Nat → Nat) : Nat → Nat
  | 0 => 0
  | n + 1 => sumLen len1 f1 n + len1 n (f1 n)

/-- Closed form of the table-1 generation loop, from any loop state whose
accumulated byte count matches the entries already written. -/
theorem firstTableAux_eq (f1 : Nat → Nat) (len1 : Nat → Nat → Nat)
    (start : Nat) : ∀ (n x : Nat) (ops : List WOp),
    firstTableAux f1 len1 start n x (sumLen len1 f1 x) ops =
      (sumLen len1 f1 (x + n),
       ops ++ (List.range' x n).map
         (fun i => WOp.entry1 (start + sumLen len1 f1 i) i (f1 i))
         ++ [WOp.eot]) := by
  intro n
  induction n with
  | zero => intro x ops; simp [firstTableAux]
  | succ n ih =>
    intro x ops
    have h1 : sumLen len1 f1 x + len1 x (f1 x) = sumLen len1 f1 (x + 1) := rfl
    have h2 : x + 1 + n = x + (n + 1) := by omega
    rw [firstTableAux, h1,
      ih (x + 1) (ops ++ [WOp.entry1 (start + sumLen len1 f1 x) x (f1 x)]),
      List.range'_succ, h2]
    simp

/-- C8: a successful `WriteFirstTable` writes exactly the entries
`(x, f1 x)` for `x = 0, 1, ..., 2^k - 1` in increasing order, at the
sequential offsets `start + (bytes of the previous entries)`, followed by
the end-of-table sentinel, and returns the total entry bytes — the
sentinel's bytes are not counted. -/
theorem writeFirstTable_spec (k start : Nat) (f1 : Nat → Nat)
    (len1 : Nat → Nat → Nat) :
    WriteFirstTable k start f1 len1 =
      (sumLen len1 f1 (2 ^ k),
       (List.range (2 ^ k)).map
         (fun x => WOp.entry1 (start + sumLen len1 f1 x) x (f1 x))
         ++ [WOp.eot]) := by
  unfold WriteFirstTable
  have h0 := firstTableAux_eq f1 len1 start (2 ^ k) 0 []
  simp only [sumLen, Nat.zero_add] at h0
  rw [h0, List.range_eq_range']
  simp

/-- The events `WritePlotFile` performs, for every collaborator
instantiation: because of the unconditional `break` the derived-table loop
contributes exactly one `buildTable 2` step (whether or not that pass
errors), and no sort of a derived table ever happens. -/
theorem plotEvents_eq (ctx : TableCtx) (streams : Nat → List (Nat × Nat))
    (k : Nat) (memo idb : List Nat) (f1 : Nat → Nat)
    (len1 : Nat → Nat → Nat) :
    (WritePlotFile ctx streams k memo idb f1 len1).events =
      [PEvent.header, PEvent.table1, PEvent.sortTable 1,
       PEvent.buildTable 2] := by
  unfold WritePlotFile tableLoopGo
  cases hw : WriteTable ctx 2 k
      ((WriteHeader k memo idb).1 +
        (WriteFirstTable k (WriteHeader k memo idb).1 f1 len1).1)
      (streams 2) with
  | mk w r =>
    obtain ⟨ops, err⟩ := r
    cases err <;> simp [hw]

/-- C2: in the embedded pipeline the derived-table loop executes only the
pass for table 2 and then returns — for every collaborator instantiation,
including runs with no error, the pass for table 3 (likewise 4..7) never
happens, contradicting the claim that all of tables 2..7 are produced. -/
theorem plotPipeline_builds_only_table2 (ctx : TableCtx)
    (streams : Nat → List (Nat × Nat)) (k : Nat) (memo idb : List Nat)
    (f1 : Nat → Nat) (len1 : Nat → Nat → Nat) :
    PEvent.buildTable 2 ∈ (WritePlotFile ctx streams k memo idb f1 len1).events
    ∧ PEvent.buildTable 3 ∉ (WritePlotFile ctx streams k memo idb f1 len1).events
    ∧ PEvent.buildTable 4 ∉ (WritePlotFile ctx streams k memo idb f1 len1).events
    ∧ PEvent.buildTable 5 ∉ (WritePlotFile ctx streams k memo idb f1 len1).events
    ∧ PEvent.buildTable 6 ∉ (WritePlotFile ctx streams k memo idb f1 len1).events
    ∧ PEvent.buildTable 7 ∉ (WritePlotFile ctx streams k memo idb f1 len1).events := by
  rw [plotEvents_eq]
  refine ⟨by simp, by simp, by simp, by simp, by simp, by simp⟩

/-- C6: `WritePlotFile` never invokes the external sort on a derived
table: after the table-2 pass no `sortTable 2` step occurs (the only sort
performed is the one of table 1), for every collaborator instantiation —
so construction of table 3, were the loop to continue, would start from an
unsorted table 2, contradicting the claim. -/
theorem plotPipeline_never_sorts_derived_tables (ctx : TableCtx)
    (streams : Nat → List (Nat × Nat)) (k : Nat) (memo idb : List Nat)
    (f1 : Nat → Nat) (len1 : Nat → Nat → Nat) :
    PEvent.buildTable 2 ∈ (WritePlotFile ctx streams k memo idb f1 len1).events
    ∧ PEvent.sortTable 2 ∉ (WritePlotFile ctx streams k memo idb f1 len1).events
    ∧ PEvent.sortTable 3 ∉ (WritePlotFile ctx streams k memo idb f1 len1).events
    ∧ (WritePlotFile ctx streams k memo idb f1 len1).events.getLast? =
        some (PEvent.buildTable 2) := by
  rw [plotEvents_eq]
  refine ⟨by simp, by simp, by simp, by simp⟩

/-- A variable-width table-1 codec: the entry for `x = 0` takes 2 bytes,
every other entry 1 byte. -/
def len1Var : Nat → Nat → Nat := fun x _ => if x = 0 then 2 else 1

/-- C7: with `k = 1` and a codec under which table 1 serializes to 3 bytes
(not a multiple of `2^k = 2`), the pipeline computes the floored per-entry
length `3 / 2 = 1` and completes with no error: the non-exact division is
silently floored, not treated as a fatal invariant violation. -/
theorem plotPipeline_floors_entry_length :
    (WriteFirstTable 1 (WriteHeader 1 [] []).1 (fun x => x) len1Var).1 % 2 ^ 1 = 1
    ∧ (WritePlotFile testCtx (fun _ => []) 1 [] [] (fun x => x) len1Var).entryLen1 = 1
    ∧ (WritePlotFile testCtx (fun _ => []) 1 [] [] (fun x => x) len1Var).err = none := by
  refine ⟨rfl, rfl, rfl⟩

/-- C10: `WriteHeader` writes, after the magic string, the plot id and the
`k` byte, a 2-byte memo-length field whose first byte is `len(memo) mod
256` and whose second byte is always zero, followed by the memo bytes; the
value the field records equals the actual memo length exactly when the
memo is shorter than 256 bytes. -/
theorem writeHeader_memo_low_byte (k : Nat) (memo idb : List Nat) :
    (WriteHeader k memo idb).2 =
      magicBytes ++ idb ++ [k % 256] ++ [memo.length % 256, 0] ++ memo
    ∧ ((memo.length % 256 + 256 * 0 = memo.length) ↔ memo.length < 256) := by
  refine ⟨rfl, ?_⟩
  omega

end ChiaPos
